import Mathlib

/-!
Shallow embedding of the itinerary normalization and scheduling core of
`src/travel_agent/itinerary_agent.py` (class `ItineraryAgent`), together with
the data model of `src/travel_agent/base.py`.

Conventions of the embedding:
* Python `datetime.time` values are hour/minute pairs of naturals (`PTime`).
* Dynamic Python values reaching `_parse_time` / `_add_minutes` are `PyVal`.
* Python strings are handled as `List Char`; `str.strip()` is `pyStrip`,
  `int(...)` is `pyIntOfChars` (sign, digits, single underscores between
  digits), `str.split(sep)` is `splitAll`.
* `datetime.strptime` is embedded for exactly the eight formats the source
  tries, following CPython's `_strptime` regexes (`%H` = `2[0-3]|[0-1]\d|\d`,
  `%I` = `1[0-2]|0[1-9]|[1-9]`, `%M` = `[0-5]\d|\d`, `%S` = `6[0-1]|[0-5]\d|\d`,
  `%p` = AM/PM case-insensitively, whitespace in the format = `\s+`), with the
  full-match check `len(data_string) == found.end()`.
-/

namespace Roameo

/-- Python `datetime.time` modelled as an hour/minute pair. A value built by
the source is always in range (hour 0-23, minute 0-59); the model allows
arbitrary naturals and the clamping sites mirror the source's `max`/`min`. -/
structure PTime where
  hour : Nat
  minute : Nat
deriving DecidableEq, Repr

/-- The dynamic Python values that reach `_parse_time` and `_add_minutes`:
`None`, an `int`, a `str`, or a `datetime.time`. -/
inductive PyVal where
  | pyNone
  | pyInt (n : Int)
  | pyStr (s : String)
  | pyTime (t : PTime)
deriving DecidableEq, Repr

/-- The whitespace characters stripped by Python `str.strip()` and matched by
the regex class `\s` (ASCII part, which is all the source can produce). -/
def isSpaceChar (c : Char) : Bool :=
  c = ' ' || c = '\t' || c = '\n' || c = '\r' || c = '\x0b' || c = '\x0c'

/-- Python `str.strip()`. -/
def pyStrip (cs : List Char) : List Char :=
  ((cs.dropWhile isSpaceChar).reverse.dropWhile isSpaceChar).reverse

/-- Numeric value of a digit character. -/
def charVal (c : Char) : Nat := c.toNat - 48

/-- Digit-run parser for Python `int(str)`: `digit (digit | _ digit)*`,
accumulating the value; a single underscore may separate digits. -/
def pyDigitsAux : List Char → Nat → Option Nat
  | [], acc => some acc
  | '_' :: c :: rest, acc =>
      if c.isDigit then pyDigitsAux rest (acc * 10 + charVal c) else none
  | ['_'], _ => none
  | c :: rest, acc =>
      if c.isDigit then pyDigitsAux rest (acc * 10 + charVal c) else none

/-- Nonempty digit string (with Python's underscore grouping) to a natural. -/
def pyDigits : List Char → Option Nat
  | [] => none
  | c :: rest => if c.isDigit then pyDigitsAux rest (charVal c) else none

/-- Python `int(s)` on a string: strip whitespace, optional sign, digits. -/
def pyIntOfChars (cs : List Char) : Option Int :=
  match pyStrip cs with
  | '+' :: rest => (pyDigits rest).map Int.ofNat
  | '-' :: rest => (pyDigits rest).map (fun n => -(n : Int))
  | s => (pyDigits s).map Int.ofNat

/-- The source's `safe_int` helper (second `_parse_time` definition):
`int(str(value).strip())` with a default on `ValueError`. -/
def safeInt (cs : List Char) (default : Int) : Int :=
  (pyIntOfChars cs).getD default

/-- The source's `validate_time`-style clamping on possibly-negative ints:
`time(max(0, min(23, h)), max(0, min(59, m)))`. -/
def clampHM (h m : Int) : PTime :=
  ⟨(max 0 (min 23 h)).toNat, (max 0 (min 59 m)).toNat⟩

/-- Clamping of an existing time value:
`time(max(0, min(23, t.hour)), max(0, min(59, t.minute)))`. -/
def clampT (t : PTime) : PTime :=
  ⟨min 23 t.hour, min 59 t.minute⟩

/-- Clamping of the nonnegative hour/minute coming out of `strptime`. -/
def clampNat (h m : Nat) : PTime :=
  ⟨min 23 h, min 59 m⟩

/-- Python `s.split(sep)`: all fields, empty fields preserved (the result is
never empty: a separator opens a new empty field, any other character is
prepended to the first field). -/
def splitAll (sep : Char) : List Char → List (List Char)
  | [] => [[]]
  | c :: rest =>
      if c = sep then [] :: splitAll sep rest
      else (c :: (splitAll sep rest).headI) :: (splitAll sep rest).tail

/-- Chars of the field before the first occurrence of the two-char sequence
`a b`; `none` when the sequence does not occur (Python `s.split(ab, 1)`). -/
def beforeSeq (a b : Char) : List Char → Option (List Char)
  | c1 :: c2 :: rest =>
      if c1 = a ∧ c2 = b then some []
      else (beforeSeq a b (c2 :: rest)).map (c1 :: ·)
  | _ => none

/-- Whether the two-char sequence `a b` occurs (Python `ab in s`). -/
def containsSeq (a b : Char) (cs : List Char) : Bool :=
  (beforeSeq a b cs).isSome

/-! ### strptime field matchers (CPython `_strptime` regexes) -/

/-- `%H`: regex `2[0-3]|[0-1]\d|\d`, alternatives in order. -/
def matchH : List Char → Option (Nat × List Char)
  | [] => none
  | c1 :: rest =>
      if c1.isDigit then
        match rest with
        | c2 :: rest2 =>
            if c1 = '2' ∧ c2.isDigit ∧ charVal c2 ≤ 3 then
              some (20 + charVal c2, rest2)
            else if (c1 = '0' ∨ c1 = '1') ∧ c2.isDigit then
              some (charVal c1 * 10 + charVal c2, rest2)
            else some (charVal c1, c2 :: rest2)
        | [] => some (charVal c1, [])
      else none

/-- `%I`: regex `1[0-2]|0[1-9]|[1-9]`. -/
def matchI : List Char → Option (Nat × List Char)
  | [] => none
  | c1 :: rest =>
      if c1.isDigit then
        match rest with
        | c2 :: rest2 =>
            if c1 = '1' ∧ c2.isDigit ∧ charVal c2 ≤ 2 then
              some (10 + charVal c2, rest2)
            else if c1 = '0' ∧ c2.isDigit ∧ 1 ≤ charVal c2 then
              some (charVal c2, rest2)
            else if c1 ≠ '0' then
              some (charVal c1, c2 :: rest2)
            else none
        | [] => if c1 ≠ '0' then some (charVal c1, []) else none
      else none

/-- `%M`: regex `[0-5]\d|\d`. -/
def matchM : List Char → Option (Nat × List Char)
  | [] => none
  | c1 :: rest =>
      if c1.isDigit then
        match rest with
        | c2 :: rest2 =>
            if charVal c1 ≤ 5 ∧ c2.isDigit then
              some (charVal c1 * 10 + charVal c2, rest2)
            else some (charVal c1, c2 :: rest2)
        | [] => some (charVal c1, [])
      else none

/-- `%S`: regex `6[0-1]|[0-5]\d|\d`. -/
def matchS : List Char → Option (Nat × List Char)
  | [] => none
  | c1 :: rest =>
      if c1.isDigit then
        match rest with
        | c2 :: rest2 =>
            if c1 = '6' ∧ c2.isDigit ∧ charVal c2 ≤ 1 then
              some (60 + charVal c2, rest2)
            else if charVal c1 ≤ 5 ∧ c2.isDigit then
              some (charVal c1 * 10 + charVal c2, rest2)
            else some (charVal c1, c2 :: rest2)
        | [] => some (charVal c1, [])
      else none

/-- `%p`: AM/PM, case-insensitive; returns whether PM was matched. -/
def matchP : List Char → Option (Bool × List Char)
  | c1 :: c2 :: rest =>
      if (c1 = 'A' ∨ c1 = 'a') ∧ (c2 = 'M' ∨ c2 = 'm') then some (false, rest)
      else if (c1 = 'P' ∨ c1 = 'p') ∧ (c2 = 'M' ∨ c2 = 'm') then some (true, rest)
      else none
  | _ => none

/-- A literal `:` in the format. -/
def matchColon : List Char → Option (List Char)
  | ':' :: rest => some rest
  | _ => none

/-- Whitespace in the format: `\s+` (at least one whitespace char, greedy). -/
def matchWs : List Char → Option (List Char)
  | c :: rest => if isSpaceChar c then some (rest.dropWhile isSpaceChar) else none
  | [] => none

/-- `_strptime`'s 12-hour conversion for `%I` with `%p`. -/
def adj12 (h : Nat) (pm : Bool) : Nat :=
  if pm then (if h = 12 then 12 else h + 12)
  else (if h = 12 then 0 else h)

/-- Format `"%H:%M"`. -/
def runHM (cs : List Char) : Option (Nat × Nat) := do
  let (h, r1) ← matchH cs
  let r2 ← matchColon r1
  let (m, r3) ← matchM r2
  if r3 = [] then pure (h, m) else none

/-- Formats `"%I:%M %p"` (`needSp = true`) and `"%I:%M%p"`. -/
def runIMp (needSp : Bool) (cs : List Char) : Option (Nat × Nat) := do
  let (h, r1) ← matchI cs
  let r2 ← matchColon r1
  let (m, r3) ← matchM r2
  let r4 ← if needSp then matchWs r3 else some r3
  let (pm, r5) ← matchP r4
  if r5 = [] then pure (adj12 h pm, m) else none

/-- Format `"%H:%M:%S"` (the source only reads hour and minute). -/
def runHMS (cs : List Char) : Option (Nat × Nat) := do
  let (h, r1) ← matchH cs
  let r2 ← matchColon r1
  let (m, r3) ← matchM r2
  let r4 ← matchColon r3
  let (_, r5) ← matchS r4
  if r5 = [] then pure (h, m) else none

/-- Formats `"%I:%M:%S %p"` (`needSp = true`) and `"%I:%M:%S%p"`. -/
def runIMSp (needSp : Bool) (cs : List Char) : Option (Nat × Nat) := do
  let (h, r1) ← matchI cs
  let r2 ← matchColon r1
  let (m, r3) ← matchM r2
  let r4 ← matchColon r3
  let (_, r5) ← matchS r4
  let r6 ← if needSp then matchWs r5 else some r5
  let (pm, r7) ← matchP r6
  if r7 = [] then pure (adj12 h pm, m) else none

/-- Format `"%I %p"`. -/
def runIp (cs : List Char) : Option (Nat × Nat) := do
  let (h, r1) ← matchI cs
  let r2 ← matchWs r1
  let (pm, r3) ← matchP r2
  if r3 = [] then pure (adj12 h pm, 0) else none

/-- Format `"%H"`. -/
def runH (cs : List Char) : Option (Nat × Nat) := do
  let (h, r1) ← matchH cs
  if r1 = [] then pure (h, 0) else none

/-- The source's `strptime` loop over its eight formats, in order; on success
the result is clamped exactly as the source does
(`time(max(0, min(23, dt.hour)), max(0, min(59, dt.minute)))`). -/
def strptimeTry (cs : List Char) : Option PTime :=
  (runHM cs <|> runIMp true cs <|> runIMp false cs <|> runHMS cs <|>
    runIMSp true cs <|> runIMSp false cs <|> runIp cs <|> runH cs).map
    (fun hm => clampNat hm.1 hm.2)

/-! ### The effective `_parse_time` (second definition, lines 1139-1272) -/

/-- The 12-hour branch of the effective `_parse_time`, applied to the
uppercased string: remove `' '`, take the part before the first `AM`
(else before the first `PM`; whole string if neither), split on `:`,
`safe_int` with default 0 for both fields, 12-to-24-hour conversion,
then clamp. -/
def parse12h (up : List Char) : PTime :=
  let clean := up.filter (· ≠ ' ')
  let (timePart, isPm) :=
    match beforeSeq 'A' 'M' clean with
    | some p => (p, false)
    | none =>
        match beforeSeq 'P' 'M' clean with
        | some p => (p, true)
        | none => (clean, true)
  let (h, m) :=
    match splitAll ':' timePart with
    | [p0] => (safeInt p0 0, (0 : Int))
    | p0 :: p1 :: _ => (safeInt p0 0, safeInt p1 0)
    | [] => (safeInt [] 0, (0 : Int))
  let h := if isPm ∧ h < 12 then h + 12 else if ¬ isPm ∧ h = 12 then 0 else h
  clampHM h m

/-- The token stage of the 24-hour branch of the effective `_parse_time`:
given the `:`-split fields that survive the `p.strip()` filter, `safe_int`
with default 0 for hour (and minute when a second field exists), clamp;
no surviving field falls through to the function's final 09:00 default. -/
def parse24hTokens (parts : List (List Char)) : PTime :=
  match parts with
  | [] => ⟨9, 0⟩
  | p0 :: rest =>
      let h := safeInt p0 0
      let m := match rest with
               | [] => (0 : Int)
               | p1 :: _ => safeInt p1 0
      clampHM h m

/-- The 24-hour branch of the effective `_parse_time`: keep digits and `:`
(everything else becomes a space), split on `:`, drop fields that strip to
empty, then `parse24hTokens`. -/
def parse24h (cs : List Char) : PTime :=
  parse24hTokens
    ((splitAll ':' (cs.map (fun c => if c.isDigit ∨ c = ':' then c else ' '))).filter
      (fun p => ¬ pyStrip p = []))

/-- Python `time_str.split('-', 1)[0].strip()` applied when the string
contains a range separator. -/
def dropRange (cs : List Char) : List Char :=
  if cs.contains '-' then pyStrip (cs.takeWhile (· ≠ '-')) else cs

/-- The effective `_parse_time` on the (stripped, range-cut) string: try the
eight `strptime` formats; else the 12-hour branch when the uppercased string
contains `AM` or `PM`; else the 24-hour branch. -/
def parseTimeCore (cs : List Char) : PTime :=
  match strptimeTry cs with
  | some t => t
  | none =>
      if containsSeq 'A' 'M' (cs.map Char.toUpper) ∨
          containsSeq 'P' 'M' (cs.map Char.toUpper) then
        parse12h (cs.map Char.toUpper)
      else parse24h cs

/-- String path of the effective `_parse_time`: strip; empty means 09:00;
keep only the part before the first `-` (stripped); then `parseTimeCore`. -/
def parseTimeStr (cs0 : List Char) : PTime :=
  if pyStrip cs0 = [] then ⟨9, 0⟩
  else parseTimeCore (dropRange (pyStrip cs0))

/-- The effective `_parse_time` (the second definition in the class body,
which shadows the first): `None` maps to the 09:00 default, a `time` value is
clamped and returned, anything else is converted with `str(...)` and parsed
as a string. -/
def parse_time : PyVal → PTime
  | .pyNone => ⟨9, 0⟩
  | .pyTime t => clampT t
  | .pyInt n => parseTimeStr (toString n).data
  | .pyStr s => parseTimeStr s.data

/-! ### The superseded first `_parse_time` (lines 290-384) -/

/-- `safe_int` of the first `_parse_time` definition: `int(value)` with a
caller-chosen default on failure. -/
def safeIntFirst (cs : List Char) (default : Int) : Int :=
  (pyIntOfChars cs).getD default

/-- Digit/`:`-handling core of the first `_parse_time` definition, after
meridiem stripping: on a `:` the hour field defaults to 12 and the minute
field to 0; otherwise a 1-2 digit blob is a bare hour (default 12) and a
longer blob is split as HHMM. -/
def parseTimeFirstCore (clean : List Char) (is12h : Bool) (isPm : Bool) : PTime :=
  let (h, m) :=
    if clean.contains ':' then
      match splitAll ':' clean with
      | [p0] => (safeIntFirst (pyStrip p0) 12, (0 : Int))
      | p0 :: p1 :: _ => (safeIntFirst (pyStrip p0) 12, safeIntFirst (pyStrip p1) 0)
      | [] => (safeIntFirst [] 12, (0 : Int))
    else
      let digits := clean.filter Char.isDigit
      if digits.length ≤ 2 then (safeIntFirst digits 12, (0 : Int))
      else (safeIntFirst (digits.take (digits.length - 2)) 12,
            safeIntFirst (digits.drop (digits.length - 2)) 0)
  let h := if is12h then
             (if isPm ∧ h < 12 then h + 12
              else if ¬ isPm ∧ h = 12 then 0 else h)
           else h
  clampHM h m

/-- Python `str.replace(pat, "")` for a two-character pattern: remove every
occurrence of the sequence `a b`, scanning left to right. -/
def removeSeq (a b : Char) : List Char → List Char
  | c1 :: c2 :: rest =>
      if c1 = a ∧ c2 = b then removeSeq a b rest
      else c1 :: removeSeq a b (c2 :: rest)
  | rest => rest

/-- String path of the first (superseded) `_parse_time` definition: strip and
uppercase; keep the part before the first `-`; keep only digits, `:`, `A`,
`P`, `M` and spaces (then strip); detect and remove `AM`/`PM`; then the
digit/`:` core with hour default 12; then clamp. -/
def parseTimeFirstStr (cs0 : List Char) : PTime :=
  let cs1 := pyStrip (cs0.map Char.toUpper)
  if cs1 = [] then ⟨9, 0⟩
  else
    let cs := if cs1.contains '-' then pyStrip (cs1.takeWhile (· ≠ '-')) else cs1
    let clean := pyStrip (cs.filter
      (fun c => c.isDigit ∨ c = ':' ∨ c = 'A' ∨ c = 'P' ∨ c = 'M' ∨ c = ' '))
    let is12h := containsSeq 'A' 'M' clean ∨ containsSeq 'P' 'M' clean
    let isPm := ¬ containsSeq 'A' 'M' clean
    let clean := if is12h then pyStrip (removeSeq 'P' 'M' (removeSeq 'A' 'M' clean))
                 else clean
    parseTimeFirstCore clean is12h isPm

/-- The first `_parse_time` definition (lines 290-384), superseded by the
second: a `time` value is clamped; a falsy input (`None`, empty string, the
integer 0) gives the 09:00 default; anything else goes through
`parseTimeFirstStr`. -/
def parse_time_first : PyVal → PTime
  | .pyTime t => clampT t
  | .pyNone => ⟨9, 0⟩
  | .pyInt n => if n = 0 then ⟨9, 0⟩ else parseTimeFirstStr (toString n).data
  | .pyStr s => parseTimeFirstStr s.data

/-! ### strftime and `_add_minutes` -/

/-- Digit character of a value below 10. -/
def dChar (n : Nat) : Char := Char.ofNat (48 + n)

/-- Two-digit zero-padded rendering of a field of a valid time
(`strftime` `%H` / `%M`). -/
def pad2 (n : Nat) : List Char :=
  if n < 10 then ['0', dChar n] else [dChar (n / 10), dChar (n % 10)]

/-- `t.strftime("%H:%M")` for a valid time value. -/
def strftimeHM (t : PTime) : String :=
  ⟨pad2 t.hour ++ ':' :: pad2 t.minute⟩

/-- The `int(minutes)` coercion in `_add_minutes`: an `int` is itself, a
string is parsed with Python `int(...)`, and a `TypeError`/`ValueError`
(unparseable string, `None`, a `time`) is coerced to 0. -/
def pyToInt : PyVal → Int
  | .pyInt n => n
  | .pyStr s => (pyIntOfChars s.data).getD 0
  | _ => 0

/-- `.time()` of a datetime at absolute minute `n` (minutes since
0001-01-01 00:00): the minute-of-day `n % 1440` split into hour and
minute. -/
def ofTotalMinutes (n : Int) : PTime :=
  ⟨((n % 1440) / 60).toNat, ((n % 1440) % 60).toNat⟩

/-- `_add_minutes` (lines 1633-1658). `todayOrdinal` models
`date.today().toordinal()` (1 = 0001-01-01; `date.max.toordinal()` =
3652059 = 9999-12-31), the ambient state the function reads.

* A non-`time` first argument fails the `isinstance` check, raises inside
  the `try`, and the handler returns the fixed 12:00 default.
* Otherwise the minutes argument is coerced with `int(...)` (0 on
  `TypeError`/`ValueError`), and
  `datetime.combine(date.today(), t) + timedelta(minutes=n)` is evaluated:
  `timedelta` normalizes to `floor(n / 1440)` days, which must lie in
  ±999999999, and the resulting datetime must stay within years 1-9999
  (absolute minutes in `[0, 3652059 * 1440)`); violating either raises
  `OverflowError`, which the same handler turns into the 12:00 default.
  In range, `.time()` of the sum is the day wrap-around of the start time.
  The subsequent hour/minute validation can never fail. -/
def add_minutes (todayOrdinal : Nat) (tv mv : PyVal) : PTime :=
  match tv with
  | .pyTime t =>
      if -999999999 ≤ pyToInt mv / 1440 ∧ pyToInt mv / 1440 ≤ 999999999 ∧
          0 ≤ ((todayOrdinal : Int) - 1) * 1440 + t.hour * 60 + t.minute + pyToInt mv ∧
          ((todayOrdinal : Int) - 1) * 1440 + t.hour * 60 + t.minute + pyToInt mv <
            3652059 * 1440 then
        ofTotalMinutes
          (((todayOrdinal : Int) - 1) * 1440 + t.hour * 60 + t.minute + pyToInt mv)
      else ⟨12, 0⟩
  | _ => ⟨12, 0⟩

/-! ### Data model (`src/travel_agent/base.py`) and the Fallback Synthesizer
(`_create_basic_itinerary`, lines 1274-1464) -/

/-- `TravelPlanRequest` from `base.py`, restricted to the fields the core
reads. The class has no `origin` and no `start_date` field, so
`_calculate_optimal_start_time` raises `AttributeError` and returns its
10:00 fallback, and the fallback day date is always `""`; neither value can
reach the output, so they are elided. The remaining pydantic fields
(`travel_style`, `budget`, `constraints`) are never read by the core. -/
structure TravelPlanRequest where
  destination : String
  duration_days : Int
deriving DecidableEq, Repr

/-- The fields of a candidate-location ("POI") mapping that
`_create_basic_itinerary` reads, each optional (`dict.get` with default). -/
structure RawPoi where
  name : Option String := none
  location : Option String := none
  description : Option String := none
  duration_minutes : Option Int := none
deriving DecidableEq, Repr

/-- One element of the `selected_pois` list: a dict `{"poi": {...}}`
(`wrapped`), a dict `{"poi": non-dict}` which the loop skips (`wrappedBad`),
a plain dict (`bare`, which also covers attribute-bearing objects via
`item.__dict__`), or a non-dict without `__dict__`, treated as `{}`
(`nonDict`). -/
inductive PoiEntry where
  | wrapped (p : RawPoi)
  | wrappedBad
  | bare (p : RawPoi)
  | nonDict
deriving DecidableEq, Repr

/-- An activity dictionary as emitted by the Fallback Synthesizer (the keys
`name`, `start_time`, `end_time`, `location`, `description`). -/
structure Act where
  name : String
  start_time : String
  end_time : String
  location : String
  description : String
deriving DecidableEq, Repr

/-- `DailyItinerary` from `base.py`: pydantic silently drops the extra
`date`/`introduction` keywords, leaving `day` and `activities`. -/
structure DayRec where
  day : Int
  activities : List Act
deriving DecidableEq, Repr

/-- `TravelItinerary` from `base.py` (without the unused
`additional_notes`). -/
structure TravelItinerary where
  destination : String
  duration_days : Int
  daily_plans : List DayRec
deriving DecidableEq, Repr

/-- The "Free Day" activity emitted for a day with no assigned candidates. -/
def freeDayAct (dest : String) : Act :=
  ⟨"Free Day", "09:00", "17:00", dest, "Free time to explore at your own pace"⟩

/-- The in-loop time arithmetic of `_create_basic_itinerary`:
`time((t.hour + (t.minute + dur) // 60) % 24, (t.minute + dur) % 60)` with
Python floor division and nonnegative remainder. -/
def timeAddCarry (t : PTime) (dur : Int) : PTime :=
  ⟨(((t.hour : Int) + ((t.minute : Int) + dur) / 60) % 24).toNat,
   (((t.minute : Int) + dur) % 60).toNat⟩

/-- Python `time` comparison, lexicographic on (hour, minute). -/
def timeLt (a b : PTime) : Bool :=
  a.hour < b.hour || (a.hour = b.hour && a.minute < b.minute)

/-- The buggy `lunch_end` of the source:
`time(lunch_time.hour, (lunch_time.minute + lunch_duration) % 60)` with
`lunch_time = time(12, 0)` and `lunch_duration = 60`, i.e. 12:00 —
the hour carry of the 60 lunch minutes is dropped. -/
def lunchEnd : PTime := ⟨12, (0 + 60) % 60⟩

/-- The mapping `item -> poi_data` at the top of the day loop; `none` means
the `continue` that skips a `{"poi": non-dict}` item. -/
def poiData : PoiEntry → Option RawPoi
  | .wrapped p => some p
  | .bare p => some p
  | .nonDict => some {}
  | .wrappedBad => none

/-- The per-day activity loop of `_create_basic_itinerary` over the
enumerated day candidates, threading the running clock (reset to 09:00 on
entry): a 30-minute travel activity before every index `i > 0`, the
candidate's activity with its declared duration (default 60), then the
(buggy, zero-length) lunch break whenever the running clock lies in
[12:00, 13:00) and `i > 0`. -/
def dayLoop (dest : String) : List (Nat × PoiEntry) → PTime → List Act
  | [], _ => []
  | (i, item) :: rest, cur =>
      match poiData item with
      | none => dayLoop dest rest cur
      | some pd =>
          let name := pd.name.getD ("Activity " ++ toString (i + 1))
          let location := pd.location.getD dest
          let description := pd.description.getD ("Enjoy " ++ name)
          let dur := pd.duration_minutes.getD 60
          let (travelActs, cur1) :=
            if 0 < i then
              let e := timeAddCarry cur 30
              ([⟨"Travel to next location", strftimeHM cur, strftimeHM e,
                 "Traveling to " ++ location, "Travel time to " ++ name⟩], e)
            else ([], cur)
          let e2 := timeAddCarry cur1 dur
          let act : Act := ⟨name, strftimeHM cur1, strftimeHM e2, location, description⟩
          let (lunchActs, cur2) :=
            if (¬ timeLt e2 ⟨12, 0⟩) ∧ timeLt e2 ⟨13, 0⟩ ∧ 0 < i then
              ([⟨"Lunch Break", strftimeHM ⟨12, 0⟩, strftimeHM lunchEnd,
                 "Local Restaurant", "Time for lunch and relaxation"⟩], lunchEnd)
            else ([], e2)
          travelActs ++ act :: lunchActs ++ dayLoop dest rest cur2

/-- `pois_per_day`: `max(2, min(4, len(selected_pois) // max(1, duration_days)))
if selected_pois else 0`, followed by the (dead) `if pois_per_day == 0 and
selected_pois: pois_per_day = 1` adjustment. -/
def ppdOf (pois : List PoiEntry) (duration_days : Int) : Nat :=
  let ppd := if pois.isEmpty then 0
             else max 2 (min 4 (pois.length / (max 1 duration_days).toNat))
  if ppd = 0 ∧ ¬ pois.isEmpty then 1 else ppd

/-- The candidates assigned to one day: the slice
`selected_pois[start_idx:end_idx]` with `start_idx = (day-1) * pois_per_day`
and `end_idx = min(start_idx + pois_per_day, len)`, except that the last day
(`day == duration_days`) takes the whole tail when `end_idx < len`. -/
def dayPoisOf (pois : List PoiEntry) (duration_days : Int) (ppd : Nat)
    (day : Nat) : List PoiEntry :=
  let start := (day - 1) * ppd
  let endIdx := min (start + ppd) pois.length
  if (day : Int) = duration_days ∧ endIdx < pois.length then pois.drop start
  else (pois.drop start).take (endIdx - start)

/-- One day record of the Fallback Synthesizer: a single "Free Day" activity
when the day has no candidates, otherwise the day loop started at 09:00.
The `date`/`introduction` extras are dropped by the pydantic model. -/
def mkDay (req : TravelPlanRequest) (pois : List PoiEntry) (ppd : Nat)
    (day : Nat) : DayRec :=
  let dps := dayPoisOf pois req.duration_days ppd day
  let acts := if dps.isEmpty then [freeDayAct req.destination]
              else dayLoop req.destination dps.enum ⟨9, 0⟩
  ⟨(day : Int), acts⟩

/-- `_create_basic_itinerary`: `for day in range(1, duration_days + 1)`. -/
def create_basic_itinerary (req : TravelPlanRequest) (pois : List PoiEntry) :
    List DayRec :=
  let ppd := ppdOf pois req.duration_days
  (List.range req.duration_days.toNat).map (fun k => mkDay req pois ppd (k + 1))

/-! ### `_parse_itinerary_response` (lines 386-1137) and `process`
(lines 1589-1631) -/

/-- JSON-like payloads produced by the external generator. -/
inductive PyJson where
  | jdict (kvs : List (String × PyJson))
  | jlist (xs : List PyJson)
  | jstr (s : String)
  | jint (n : Int)
  | jnull

/-- Lookup in a payload mapping (Python dict keys are unique; first match). -/
def jLookup (kvs : List (String × PyJson)) (k : String) : Option PyJson :=
  (kvs.find? (fun kv => kv.1 = k)).map (·.2)

/-- `key in response`. -/
def hasKey (kvs : List (String × PyJson)) (k : String) : Bool :=
  (jLookup kvs k).isSome

/-- `isinstance(x, dict)`. -/
def isDictJson : PyJson → Bool
  | .jdict _ => true
  | _ => false

/-- The exceptions that escape individual steps of the core. -/
inductive PyErr where
  | attrError
  | validationError
deriving DecidableEq, Repr

/-- What `_parse_itinerary_response` hands back to `_generate_with_llm`:
either the (necessarily empty) day-dict list built by the triad branch, or
the coroutine object produced by calling the `async`
`_create_basic_itinerary` without `await` from a synchronous context. -/
inductive ParseOut where
  | emptyDayList
  | coro
deriving DecidableEq, Repr

/-- `_parse_itinerary_response` as observed by its caller.

* A non-dict payload raises `AttributeError` at the unconditional
  `list(response.keys())` debug call (line 390).
* A dict with all of `trip_name`, `introduction`, `daily_itinerary` enters
  the triad branch (Format 0); a non-list `daily_itinerary` returns the
  still-empty accumulator; a list whose elements include a dict raises
  `AttributeError` at `datetime.datetime.now()` (line 433, with
  `from datetime import datetime` in scope) before anything is appended,
  and a list with no dict elements skips them all and returns the empty
  accumulator.
* Every other dict falls through the non-returning format branches to the
  reinitialized second half, which either hits the undefined
  `activities_data` (caught by the outermost handler) or finds no day
  records; both routes `return self._create_basic_itinerary(...)` without
  `await`, i.e. a coroutine object. -/
def parse_itinerary_response (payload : PyJson) : Except PyErr ParseOut :=
  match payload with
  | .jdict kvs =>
      if hasKey kvs "trip_name" ∧ hasKey kvs "introduction" ∧
          hasKey kvs "daily_itinerary" then
        match jLookup kvs "daily_itinerary" with
        | some (.jlist xs) =>
            if xs.any isDictJson then .error .attrError else .ok .emptyDayList
        | _ => .ok .emptyDayList
      else .ok .coro
  | _ => .error .attrError

/-- Whether `selected_pois` contains a `{"poi": {...}}` item, i.e. whether
`pois_str` is non-empty and `_generate_with_llm` calls the external chain
instead of awaiting the fallback directly (line 187-189). -/
def hasWrapped (pois : List PoiEntry) : Bool :=
  pois.any (fun e => match e with | .wrapped _ => true | _ => false)

/-- The value `_generate_with_llm` returns to `process`: a list of
`DailyItinerary` objects (the awaited fallback), the empty day-dict list
from the triad branch, or a coroutine object (any raised exception is
caught and answered with an un-`await`ed `_create_basic_itinerary` call). -/
inductive GenOut where
  | objs (plans : List DayRec)
  | emptyDicts
  | coro
deriving DecidableEq, Repr

/-- `_generate_with_llm`, with the external model call abstracted into
`payload : Option PyJson` (`none` = the chain invocation or JSON parsing
raised). -/
def generate_with_llm (req : TravelPlanRequest) (pois : List PoiEntry)
    (payload : Option PyJson) : GenOut :=
  if ¬ hasWrapped pois then .objs (create_basic_itinerary req pois)
  else
    match payload with
    | none => .coro
    | some p =>
        match parse_itinerary_response p with
        | .error _ => .coro
        | .ok .emptyDayList => .emptyDicts
        | .ok .coro => .coro

/-- Python truthiness of `daily_plans` at `if not daily_plans:`
(empty lists are falsy; a coroutine object is truthy). -/
def plansFalsy : GenOut → Bool
  | .objs l => l.isEmpty
  | .emptyDicts => true
  | .coro => false

/-- `process`: when `daily_plans` is falsy it is replaced by an un-`await`ed
(coroutine) `_create_basic_itinerary` call; a coroutine in `daily_plans`
fails `TravelItinerary` validation, and the `except` branch then builds
`TravelItinerary` around another coroutine, so the second
`pydantic.ValidationError` propagates to the caller. -/
def process (req : TravelPlanRequest) (pois : List PoiEntry)
    (payload : Option PyJson) : Except PyErr TravelItinerary :=
  let dp := generate_with_llm req pois payload
  let dp2 := if plansFalsy dp then GenOut.coro else dp
  match dp2 with
  | .objs plans => .ok ⟨req.destination, req.duration_days, plans⟩
  | _ => .error .validationError

/-! ### Concrete inputs used by the verification below -/

/-- `isinstance(t, time)` on the first argument of `_add_minutes`. -/
def isPyTime : PyVal → Bool
  | .pyTime _ => true
  | _ => false

/-- A sample candidate location with a 60-minute declared duration. -/
def poiA : RawPoi := { name := some "A", duration_minutes := some 60 }

/-- A sample candidate location with a 120-minute declared duration. -/
def poiB : RawPoi := { name := some "B", duration_minutes := some 120 }

/-- Seven wrapped candidate locations (for the 7-over-3-days scenario). -/
def sevenPois : List PoiEntry := List.replicate 7 (.wrapped poiA)

/-- A payload that matches both the `trip_name`/`introduction`/
`daily_itinerary` triad shape and carries a `days` key. -/
def triadDaysPayload : PyJson :=
  .jdict [("trip_name", .jstr "T"), ("introduction", .jstr "I"),
          ("daily_itinerary", .jlist [.jdict [("day", .jint 1)]]),
          ("days", .jlist [.jdict [("day", .jint 1)]])]

/-- The same payload with only the `days` key. -/
def daysOnlyPayload : PyJson :=
  .jdict [("days", .jlist [.jdict [("day", .jint 1)]])]

/-! ## Helper lemmas -/

theorem clampHM_valid (h m : Int) :
    (clampHM h m).hour ≤ 23 ∧ (clampHM h m).minute ≤ 59 := by
  constructor <;> simp only [clampHM] <;> omega

theorem clampNat_valid (h m : Nat) :
    (clampNat h m).hour ≤ 23 ∧ (clampNat h m).minute ≤ 59 := by
  constructor <;> simp only [clampNat] <;> omega

theorem strptimeTry_valid (cs : List Char) (t : PTime)
    (h : strptimeTry cs = some t) : t.hour ≤ 23 ∧ t.minute ≤ 59 := by
  unfold strptimeTry at h
  cases hv : (runHM cs <|> runIMp true cs <|> runIMp false cs <|> runHMS cs <|>
      runIMSp true cs <|> runIMSp false cs <|> runIp cs <|> runH cs) with
  | none => rw [hv] at h; simp at h
  | some hm =>
      rw [hv] at h
      cases h
      exact clampNat_valid hm.1 hm.2

theorem parse12h_valid (up : List Char) :
    (parse12h up).hour ≤ 23 ∧ (parse12h up).minute ≤ 59 := by
  unfold parse12h
  exact clampHM_valid _ _

theorem parse24hTokens_valid (parts : List (List Char)) :
    (parse24hTokens parts).hour ≤ 23 ∧ (parse24hTokens parts).minute ≤ 59 := by
  unfold parse24hTokens
  cases parts with
  | nil => exact ⟨by decide, by decide⟩
  | cons p0 rest => exact clampHM_valid _ _

theorem parse24h_valid (cs : List Char) :
    (parse24h cs).hour ≤ 23 ∧ (parse24h cs).minute ≤ 59 :=
  parse24hTokens_valid _

theorem parseTimeCore_valid (cs : List Char) :
    (parseTimeCore cs).hour ≤ 23 ∧ (parseTimeCore cs).minute ≤ 59 := by
  unfold parseTimeCore
  cases hs : strptimeTry cs with
  | some t => exact strptimeTry_valid _ _ hs
  | none =>
      by_cases h2 : (containsSeq 'A' 'M' (cs.map Char.toUpper) : Prop) ∨
          (containsSeq 'P' 'M' (cs.map Char.toUpper) : Prop)
      · simp only [if_pos h2]
        exact parse12h_valid _
      · simp only [if_neg h2]
        exact parse24h_valid _

theorem parseTimeStr_valid (cs0 : List Char) :
    (parseTimeStr cs0).hour ≤ 23 ∧ (parseTimeStr cs0).minute ≤ 59 := by
  unfold parseTimeStr
  by_cases h1 : pyStrip cs0 = []
  · simp [h1]
  · simp only [if_neg h1]
    exact parseTimeCore_valid _

theorem matchH_none (cs : List Char) (h : ∀ c ∈ cs, c.isDigit = false) :
    matchH cs = none := by
  cases cs with
  | nil => rfl
  | cons c1 rest => simp [matchH, h c1 (by simp)]

theorem matchI_none (cs : List Char) (h : ∀ c ∈ cs, c.isDigit = false) :
    matchI cs = none := by
  cases cs with
  | nil => rfl
  | cons c1 rest => simp [matchI, h c1 (by simp)]

theorem strptimeTry_none (cs : List Char) (h : ∀ c ∈ cs, c.isDigit = false) :
    strptimeTry cs = none := by
  have hH := matchH_none cs h
  have hI := matchI_none cs h
  unfold strptimeTry runHM runIMp runHMS runIMSp runIp runH
  rw [hH, hI]
  rfl

theorem beforeSeq_none (a : Char) (l : List Char)
    (h : ∀ c ∈ l, c ≠ 'M') : beforeSeq a 'M' l = none := by
  induction l with
  | nil => rfl
  | cons c1 rest ih =>
      cases rest with
      | nil => rfl
      | cons c2 rest2 =>
          have h2 : c2 ≠ 'M' := h c2 (by simp)
          have hrest : ∀ c ∈ c2 :: rest2, c ≠ 'M' := by
            intro c hc
            exact h c (List.mem_cons_of_mem _ hc)
          unfold beforeSeq
          rw [if_neg (by tauto), ih hrest]
          rfl

theorem pyStrip_subset (l : List Char) : pyStrip l ⊆ l := by
  intro c hc
  unfold pyStrip at hc
  rw [List.mem_reverse] at hc
  have h1 := (List.dropWhile_sublist (p := isSpaceChar)
    (l := (l.dropWhile isSpaceChar).reverse)).subset hc
  rw [List.mem_reverse] at h1
  exact (List.dropWhile_sublist (p := isSpaceChar) (l := l)).subset h1

theorem dropRange_subset (l : List Char) : dropRange l ⊆ l := by
  intro c hc
  unfold dropRange at hc
  by_cases hd : l.contains '-'
  · rw [if_pos hd] at hc
    have h1 := pyStrip_subset _ hc
    exact (List.takeWhile_sublist (p := (· ≠ '-'))).subset h1
  · rw [if_neg hd] at hc
    exact hc

theorem splitAll_ne_nil (sep : Char) (l : List Char) : splitAll sep l ≠ [] := by
  cases l with
  | nil => simp [splitAll]
  | cons c rest =>
      unfold splitAll
      split <;> simp

theorem splitAll_tokens_space (l : List Char)
    (h : ∀ c ∈ l, c = ':' ∨ c = ' ') :
    ∀ p ∈ splitAll ':' l, ∀ c ∈ p, c = ' ' := by
  induction l with
  | nil =>
      intro p hp c hc
      simp [splitAll] at hp
      subst hp
      simp at hc
  | cons c1 rest ih =>
      intro p hp c hc
      have hrest : ∀ c ∈ rest, c = ':' ∨ c = ' ' := by
        intro x hx
        exact h x (List.mem_cons_of_mem _ hx)
      have ih' := ih hrest
      cases hs : splitAll ':' rest with
      | nil => exact absurd hs (splitAll_ne_nil ':' rest)
      | cons p0 t =>
          unfold splitAll at hp
          rw [hs] at hp
          by_cases hc1 : c1 = ':'
          · rw [if_pos hc1] at hp
            rcases List.mem_cons.mp hp with h1 | h1
            · subst h1; simp at hc
            · exact ih' p (by rw [hs]; exact h1) c hc
          · rw [if_neg hc1] at hp
            have hc1' : c1 = ' ' := by
              rcases h c1 (by simp) with h2 | h2
              · exact absurd h2 hc1
              · exact h2
            simp only [List.headI, List.tail] at hp
            rcases List.mem_cons.mp hp with h1 | h1
            · subst h1
              rcases List.mem_cons.mp hc with h2 | h2
              · rw [h2, hc1']
              · exact ih' p0 (by rw [hs]; simp) c h2
            · exact ih' p (by rw [hs]; exact List.mem_cons_of_mem _ h1) c hc

theorem pyStrip_all_space (p : List Char) (h : ∀ c ∈ p, c = ' ') :
    pyStrip p = [] := by
  have hdrop : p.dropWhile isSpaceChar = [] := by
    rw [List.dropWhile_eq_nil_iff]
    intro c hc
    rw [h c hc]
    rfl
  unfold pyStrip
  rw [hdrop]
  rfl

theorem parse24h_default (cs : List Char) (h : ∀ c ∈ cs, c.isDigit = false) :
    parse24h cs = ⟨9, 0⟩ := by
  unfold parse24h
  have hclean : ∀ c ∈ cs.map (fun c => if c.isDigit ∨ c = ':' then c else ' '),
      c = ':' ∨ c = ' ' := by
    intro c hc
    rcases List.mem_map.mp hc with ⟨c0, hc0, rfl⟩
    by_cases h1 : c0.isDigit ∨ c0 = ':'
    · rcases h1 with h1 | h1
      · rw [h c0 hc0] at h1; cases h1
      · left; simp [h1]
    · right; simp [h1]
  have htok := splitAll_tokens_space _ hclean
  have hfilter : (splitAll ':' (cs.map (fun c => if c.isDigit ∨ c = ':' then c
      else ' '))).filter (fun p => ¬ pyStrip p = []) = [] := by
    rw [List.filter_eq_nil_iff]
    intro p hp
    have := pyStrip_all_space p (htok p hp)
    simp [this]
  rw [hfilter]
  rfl

theorem parseTimeCore_default (cs : List Char)
    (h : ∀ c ∈ cs, c.isDigit = false ∧ c.toUpper ≠ 'M') :
    parseTimeCore cs = ⟨9, 0⟩ := by
  have hnoM : ∀ c ∈ cs.map Char.toUpper, c ≠ 'M' := by
    intro c hc
    rcases List.mem_map.mp hc with ⟨c0, hc0, rfl⟩
    exact (h c0 hc0).2
  unfold parseTimeCore
  rw [strptimeTry_none cs (fun c hc => (h c hc).1)]
  rw [if_neg (by
    intro hcon
    rcases hcon with hcon | hcon <;>
      · unfold containsSeq at hcon
        rw [beforeSeq_none _ _ hnoM] at hcon
        simp at hcon)]
  exact parse24h_default cs (fun c hc => (h c hc).1)

theorem dayPoisOf_nil (d : Int) (ppd day : Nat) :
    dayPoisOf [] d ppd day = [] := by
  simp [dayPoisOf]

theorem mkDay_nil (req : TravelPlanRequest) (ppd day : Nat) :
    mkDay req [] ppd day = ⟨(day : Int), [freeDayAct req.destination]⟩ := by
  simp [mkDay, dayPoisOf_nil]

theorem create_basic_nil (req : TravelPlanRequest) :
    create_basic_itinerary req [] =
      (List.range req.duration_days.toNat).map
        (fun k => ⟨((k + 1 : Nat) : Int), [freeDayAct req.destination]⟩) := by
  unfold create_basic_itinerary
  exact List.map_congr_left (fun k _ => mkDay_nil req _ (k + 1))

theorem create_basic_length (req : TravelPlanRequest) (pois : List PoiEntry) :
    (create_basic_itinerary req pois).length = req.duration_days.toNat := by
  simp [create_basic_itinerary]

theorem create_basic_days (req : TravelPlanRequest) (pois : List PoiEntry) :
    (create_basic_itinerary req pois).map DayRec.day =
      (List.range req.duration_days.toNat).map (fun k => ((k + 1 : Nat) : Int)) := by
  unfold create_basic_itinerary
  rw [List.map_map]
  exact List.map_congr_left (fun k _ => by simp [mkDay])

theorem process_no_wrapped (req : TravelPlanRequest) (pois : List PoiEntry)
    (payload : Option PyJson) (hw : hasWrapped pois = false)
    (hne : ¬ create_basic_itinerary req pois = []) :
    process req pois payload =
      .ok ⟨req.destination, req.duration_days, create_basic_itinerary req pois⟩ := by
  have hie : (create_basic_itinerary req pois).isEmpty = false := by
    cases hl : create_basic_itinerary req pois with
    | nil => exact absurd hl hne
    | cons a l => rfl
  unfold process generate_with_llm
  simp [hw, plansFalsy, hie]

theorem process_wrapped_raises (req : TravelPlanRequest) (pois : List PoiEntry)
    (payload : Option PyJson) (hw : hasWrapped pois = true) :
    process req pois payload = .error .validationError := by
  cases payload with
  | none => unfold process generate_with_llm; simp [hw, plansFalsy]
  | some p =>
      unfold process generate_with_llm
      cases hp : parse_itinerary_response p with
      | error e => simp [hw, hp, plansFalsy]
      | ok o => cases o <;> simp [hw, hp, plansFalsy]

theorem process_empty_basic (req : TravelPlanRequest) (pois : List PoiEntry)
    (payload : Option PyJson) (hw : hasWrapped pois = false)
    (he : create_basic_itinerary req pois = []) :
    process req pois payload = .error .validationError := by
  unfold process generate_with_llm
  simp [hw, plansFalsy, he]

theorem ofTotalMinutes_shift (k a : Int) :
    ofTotalMinutes (1440 * k + a) = ofTotalMinutes a := by
  simp only [ofTotalMinutes]
  congr 1 <;> omega

/-! ## Claim theorems -/

/-- C1: for every request with `duration_days = N >= 1`, any result the core
returns is a list of exactly N day records with day indices 1..N in ascending
order (no gaps, no duplicates); in the worst case (empty candidate list, any
payload outcome) it is exactly N days each holding the single "Free Day"
activity from 09:00 to 17:00. -/
theorem claim_C1 (req : TravelPlanRequest) (h : 1 ≤ req.duration_days) :
    (∀ payload, process req [] payload =
        .ok ⟨req.destination, req.duration_days,
          (List.range req.duration_days.toNat).map
            (fun k => ⟨((k + 1 : Nat) : Int), [freeDayAct req.destination]⟩)⟩) ∧
    (∀ pois payload it, process req pois payload = .ok it →
        it.daily_plans.length = req.duration_days.toNat ∧
        it.daily_plans.map DayRec.day =
          (List.range req.duration_days.toNat).map (fun k => ((k + 1 : Nat) : Int))) := by
  have htoNat : req.duration_days.toNat ≠ 0 := by omega
  have hne : ∀ pois, ¬ create_basic_itinerary req pois = [] := by
    intro pois hl
    have := create_basic_length req pois
    rw [hl] at this
    simp at this
    omega
  constructor
  · intro payload
    rw [process_no_wrapped req [] payload rfl (hne []), create_basic_nil req]
  · intro pois payload it hok
    cases hw : hasWrapped pois with
    | true =>
        rw [process_wrapped_raises req pois payload hw] at hok
        cases hok
    | false =>
        rw [process_no_wrapped req pois payload hw (hne pois)] at hok
        cases hok
        exact ⟨create_basic_length req pois, create_basic_days req pois⟩

/-- C1 witness: a 3-day request with no candidates and no payload yields
exactly the three Free-Day records. -/
theorem claim_C1_witness :
    (1 ≤ (3 : Int)) ∧
    process ⟨"Paris", 3⟩ [] none =
      .ok ⟨"Paris", 3, (List.range (3 : Int).toNat).map
        (fun k => ⟨((k + 1 : Nat) : Int), [freeDayAct "Paris"]⟩)⟩ :=
  ⟨by decide, (claim_C1 ⟨"Paris", 3⟩ (by decide)).1 none⟩

/-- C2: the claim says `process` never raises; in the code it does. With any
candidate list containing a `{"poi": {...}}` item, `_generate_with_llm`
answers every failure with an un-`await`ed coroutine, `TravelItinerary`
validation rejects it, and the `except` branch of `process` rebuilds
`TravelItinerary` around another coroutine, so a second
`pydantic.ValidationError` escapes `process` — for every payload outcome. -/
theorem claim_C2 :
    process ⟨"Paris", 2⟩ [.wrapped poiA] none = .error .validationError ∧
    ∀ p : PyJson, process ⟨"Paris", 2⟩ [.wrapped poiA] (some p) =
      .error .validationError := by
  refine ⟨rfl, ?_⟩
  intro p
  exact process_wrapped_raises _ _ _ rfl

/-- C3: the effective `_parse_time` is total and always lands in range
(hour 0-23, minute 0-59); `None` and whitespace-only/empty strings give the
09:00 default, and so does every string without digits and without an
`AM`/`PM` marker (nothing to parse). -/
theorem claim_C3 :
    (∀ v : PyVal, (parse_time v).hour ≤ 23 ∧ (parse_time v).minute ≤ 59) ∧
    parse_time .pyNone = ⟨9, 0⟩ ∧
    (∀ s : String, pyStrip s.data = [] → parse_time (.pyStr s) = ⟨9, 0⟩) ∧
    (∀ s : String, (∀ c ∈ s.data, c.isDigit = false ∧ c.toUpper ≠ 'M') →
        parse_time (.pyStr s) = ⟨9, 0⟩) := by
  refine ⟨?_, rfl, ?_, ?_⟩
  · intro v
    cases v with
    | pyNone => exact ⟨by decide, by decide⟩
    | pyTime t => exact ⟨Nat.min_le_left 23 _, Nat.min_le_left 59 _⟩
    | pyInt n => exact parseTimeStr_valid _
    | pyStr s => exact parseTimeStr_valid _
  · intro s hs
    show parseTimeStr s.data = ⟨9, 0⟩
    unfold parseTimeStr
    rw [if_pos hs]
  · intro s hs
    show parseTimeStr s.data = ⟨9, 0⟩
    unfold parseTimeStr
    by_cases h1 : pyStrip s.data = []
    · rw [if_pos h1]
    · rw [if_neg h1]
      apply parseTimeCore_default
      intro c hc
      exact hs c (pyStrip_subset s.data (dropRange_subset _ hc))

/-- C3 witness: a digit-free, meridiem-free string parses to the default. -/
theorem claim_C3_witness :
    (∀ c ∈ ("hello").data, c.isDigit = false ∧ c.toUpper ≠ 'M') ∧
    parse_time (.pyStr "hello") = ⟨9, 0⟩ :=
  ⟨by decide, claim_C3.2.2.2 "hello" (by decide)⟩

set_option maxRecDepth 4000 in
/-- C4: time parsing is idempotent on canonical times: parsing the
`strftime("%H:%M")` rendering of any in-range time returns that time
(the `"%H:%M"` `strptime` format, tried first, accepts every such string). -/
theorem claim_C4 : ∀ h : Nat, h < 24 → ∀ m : Nat, m < 60 →
    parse_time (.pyStr (strftimeHM ⟨h, m⟩)) = ⟨h, m⟩ := by decide

/-- C4 witness at 14:30. -/
theorem claim_C4_witness :
    (14 < 24) ∧ parse_time (.pyStr (strftimeHM ⟨14, 30⟩)) = ⟨14, 30⟩ :=
  ⟨by decide, claim_C4 14 (by decide) 30 (by decide)⟩

/-- C5 counterexample: the claim predicts that the empty hour token of
`":30"` defaults the hour to 12, giving 12:30; the effective `_parse_time`
instead filters the empty token out, takes `"30"` as the hour and clamps it,
giving 23:00. -/
theorem claim_C5_counterexample :
    parse_time (.pyStr ":30") = ⟨23, 0⟩ ∧
    parse_time (.pyStr ":30") ≠ ⟨12, 30⟩ := by decide

/-- C5 amended: in the effective `_parse_time` the 24-hour branch drops
empty tokens and defaults an unparseable hour token to 0 (and the minute
token to 0); the hour-defaults-to-12 rule exists only in the superseded
first `_parse_time` definition, which yields 12:30 on `":30"`. -/
theorem claim_C5 :
    (∀ p0 rest, pyIntOfChars p0 = none → (parse24hTokens (p0 :: rest)).hour = 0) ∧
    (∀ p0 p1 rest, pyIntOfChars p1 = none →
        (parse24hTokens (p0 :: p1 :: rest)).minute = 0) ∧
    parse_time_first (.pyStr ":30") = ⟨12, 30⟩ ∧
    parse_time (.pyStr "14h30") = ⟨0, 0⟩ := by
  refine ⟨?_, ?_, by decide, by decide⟩
  · intro p0 rest h
    cases rest with
    | nil =>
        show (clampHM ((pyIntOfChars p0).getD 0) 0).hour = 0
        rw [h]
        decide
    | cons p1 tl =>
        show (clampHM ((pyIntOfChars p0).getD 0) ((pyIntOfChars p1).getD 0)).hour = 0
        rw [h]
        simp [clampHM]
  · intro p0 p1 rest h
    show (clampHM ((pyIntOfChars p0).getD 0) ((pyIntOfChars p1).getD 0)).minute = 0
    rw [h]
    simp [clampHM]

/-- C5 witness: an unparseable (non-digit) token defaults to hour 0. -/
theorem claim_C5_witness :
    pyIntOfChars ['x'] = none ∧ (parse24hTokens [['x']]).hour = 0 :=
  ⟨by decide, claim_C5.1 ['x'] [] (by decide)⟩

/-- C6 counterexample: negative minutes are not coerced to 0 — they are
subtracted: with today = ordinal 739617 (a 2026 date), `add_minutes(9:00,
-60)` is 8:00, not the 9:00 the claim predicts. -/
theorem claim_C6_counterexample :
    add_minutes 739617 (.pyTime ⟨9, 0⟩) (.pyInt (-60)) = ⟨8, 0⟩ ∧
    add_minutes 739617 (.pyTime ⟨9, 0⟩) (.pyInt (-60)) ≠ ⟨9, 0⟩ := by decide

/-- C6 amended: for every integer minutes argument whose `timedelta` fits
(±999999999 days) and whose sum stays inside the datetime range (years
1-9999), `add_minutes` computes `(t.hour*60 + t.minute + minutes) mod 1440`
— negative in-range minutes subtract rather than being coerced to 0; outside
that range the `OverflowError` handler returns the 12:00 default. Only a
non-integer minutes argument (`None`, an unparseable string) is coerced to
0, returning the canonical time unchanged. `add_minutes(23:50, 20) = 00:10`
on every day but the last representable one. -/
theorem claim_C6 (today : Nat) (t : PTime) (h1 : 1 ≤ today)
    (h2 : today ≤ 3652059) (ht : t.hour ≤ 23) (hm : t.minute ≤ 59) :
    (∀ n : Int, -999999999 ≤ n / 1440 → n / 1440 ≤ 999999999 →
        0 ≤ ((today : Int) - 1) * 1440 + t.hour * 60 + t.minute + n →
        ((today : Int) - 1) * 1440 + t.hour * 60 + t.minute + n < 3652059 * 1440 →
        add_minutes today (.pyTime t) (.pyInt n) =
          ofTotalMinutes ((t.hour : Int) * 60 + t.minute + n)) ∧
    (∀ n : Int, (n / 1440 < -999999999 ∨ 999999999 < n / 1440 ∨
        ((today : Int) - 1) * 1440 + t.hour * 60 + t.minute + n < 0 ∨
        3652059 * 1440 ≤ ((today : Int) - 1) * 1440 + t.hour * 60 + t.minute + n) →
        add_minutes today (.pyTime t) (.pyInt n) = ⟨12, 0⟩) ∧
    add_minutes today (.pyTime t) .pyNone = t ∧
    (∀ s : String, pyIntOfChars s.data = none →
        add_minutes today (.pyTime t) (.pyStr s) = t) ∧
    (today < 3652059 →
        add_minutes today (.pyTime ⟨23, 50⟩) (.pyInt 20) = ⟨0, 10⟩) := by
  have hsplit : ∀ n : Int, ((today : Int) - 1) * 1440 + t.hour * 60 + t.minute + n =
      1440 * ((today : Int) - 1) + ((t.hour : Int) * 60 + t.minute + n) := by
    intro n
    ring
  have hid : ofTotalMinutes ((t.hour : Int) * 60 + t.minute + 0) = t := by
    cases t with
    | mk h m =>
        simp only [ofTotalMinutes]
        simp only at ht hm
        congr 1 <;> omega
  have hzero : ∀ n : Int, n = 0 → add_minutes today (.pyTime t) (.pyInt n) = t := by
    intro n hn
    subst hn
    simp only [add_minutes, pyToInt]
    rw [if_pos ⟨by omega, by omega, by omega, by omega⟩]
    rw [hsplit 0, ofTotalMinutes_shift]
    exact hid
  refine ⟨?_, ?_, ?_, ?_, ?_⟩
  · intro n ha hb hc hd
    simp only [add_minutes, pyToInt]
    rw [if_pos ⟨ha, hb, hc, hd⟩]
    rw [hsplit n, ofTotalMinutes_shift]
  · intro n hov
    simp only [add_minutes, pyToInt]
    rw [if_neg (fun hcon => by
      obtain ⟨a, b, c, d⟩ := hcon
      rcases hov with h | h | h | h <;> omega)]
  · show add_minutes today (.pyTime t) (.pyInt 0) = t
    exact hzero 0 rfl
  · intro s hs
    have : add_minutes today (.pyTime t) (.pyStr s) =
        add_minutes today (.pyTime t) (.pyInt ((pyIntOfChars s.data).getD 0)) := by
      simp only [add_minutes, pyToInt]
    rw [this, hs]
    exact hzero _ rfl
  · intro hlast
    simp only [add_minutes, pyToInt]
    rw [if_pos ⟨by omega, by omega, by omega, by omega⟩]
    simp only [ofTotalMinutes, PTime.mk.injEq]
    refine ⟨?_, ?_⟩ <;> omega

/-- C6 witness: on a 2026 date, a `None` minutes argument leaves 10:15
unchanged, `23:50 + 20` wraps to `00:10`, and the out-of-range
`5000000000` minutes (the `OverflowError` path) yields the 12:00 default. -/
theorem claim_C6_witness :
    ((1 : Nat) ≤ 739617) ∧
    add_minutes 739617 (.pyTime ⟨10, 15⟩) .pyNone = ⟨10, 15⟩ ∧
    add_minutes 739617 (.pyTime ⟨23, 50⟩) (.pyInt 20) = ⟨0, 10⟩ ∧
    add_minutes 739617 (.pyTime ⟨9, 0⟩) (.pyInt 5000000000) = ⟨12, 0⟩ :=
  ⟨by decide,
   (claim_C6 739617 ⟨10, 15⟩ (by decide) (by decide) (by decide) (by decide)).2.2.1,
   (claim_C6 739617 ⟨23, 50⟩ (by decide) (by decide) (by decide)
     (by decide)).2.2.2.2 (by decide),
   (claim_C6 739617 ⟨9, 0⟩ (by decide) (by decide) (by decide) (by decide)).2.1
     5000000000 (Or.inr (Or.inr (Or.inr (by decide))))⟩

/-- C7: the claim says a payload carrying both the triad keys and a `days`
key is normalized by the triad rule into one seed per `daily_itinerary`
element. The dispatch priority does hold (the `days` rule is never reached),
but the triad branch evaluates `datetime.datetime.now()` under
`from datetime import datetime` and raises `AttributeError` on the first
dict day object, so no seeds are produced; the same payload without the
triad keys is handled by the `days` machinery (ending in the coroutine
return). -/
theorem claim_C7 :
    parse_itinerary_response triadDaysPayload = .error .attrError ∧
    parse_itinerary_response daysOnlyPayload = .ok .coro :=
  ⟨rfl, rfl⟩

/-- C8: the fallback distribution targets
`max(2, min(4, len(candidates) // duration_days))` per day, every non-final
day takes the next `pois_per_day`-sized slice, the final day absorbs the
whole remaining tail, and 7 candidates over 3 days split as 2/2/3. -/
theorem claim_C8 (pois : List PoiEntry) (N : Int) (h1 : 1 ≤ N)
    (h2 : pois ≠ []) :
    ppdOf pois N = max 2 (min 4 (pois.length / N.toNat)) ∧
    (∀ day : Nat, 1 ≤ day → (day : Int) < N →
        dayPoisOf pois N (ppdOf pois N) day =
          (pois.drop ((day - 1) * ppdOf pois N)).take (ppdOf pois N)) ∧
    dayPoisOf pois N (ppdOf pois N) N.toNat =
        pois.drop ((N.toNat - 1) * ppdOf pois N) ∧
    (List.range 3).map
        (fun k => (dayPoisOf sevenPois 3 (ppdOf sevenPois 3) (k + 1)).length) =
      [2, 2, 3] := by
  have hie : pois.isEmpty = false := by
    cases pois with
    | nil => exact absurd rfl h2
    | cons a l => rfl
  have hmax : max 1 N = N := max_eq_right h1
  have hppd : ppdOf pois N = max 2 (min 4 (pois.length / N.toNat)) := by
    unfold ppdOf
    rw [hie, hmax]
    simp
  refine ⟨hppd, ?_, ?_, by decide⟩
  · intro day hd1 hdN
    unfold dayPoisOf
    rw [if_neg (by
      rintro ⟨hEq, -⟩
      omega)]
    by_cases hc : (day - 1) * ppdOf pois N + ppdOf pois N ≤ pois.length
    · congr 1
      omega
    · have hlen : (pois.drop ((day - 1) * ppdOf pois N)).length =
          pois.length - (day - 1) * ppdOf pois N := List.length_drop _ _
      rw [show min ((day - 1) * ppdOf pois N + ppdOf pois N) pois.length -
            (day - 1) * ppdOf pois N = pois.length - (day - 1) * ppdOf pois N
          from by omega]
      rw [List.take_of_length_le (by omega), List.take_of_length_le (by omega)]
  · have hcast : ((N.toNat : Int)) = N := Int.toNat_of_nonneg (by omega)
    unfold dayPoisOf
    by_cases hc : min ((N.toNat - 1) * ppdOf pois N + ppdOf pois N) pois.length <
        pois.length
    · rw [if_pos ⟨hcast, hc⟩]
    · rw [if_neg (by
        rintro ⟨-, h⟩
        exact hc h)]
      have hlen : (pois.drop ((N.toNat - 1) * ppdOf pois N)).length =
          pois.length - (N.toNat - 1) * ppdOf pois N := List.length_drop _ _
      rw [List.take_of_length_le (by omega)]

/-- C8 witness: the concrete 7-candidates / 3-days scenario. -/
theorem claim_C8_witness :
    sevenPois ≠ [] ∧
    ppdOf sevenPois 3 = max 2 (min 4 (sevenPois.length / (3 : Int).toNat)) :=
  ⟨by decide, (claim_C8 sevenPois 3 (by decide) (by decide)).1⟩

/-- C9: the claim says one Lunch Break spanning 12:00-13:00. The code's
`lunch_end` is `time(12, (0 + 60) % 60)` = 12:00 (the hour carry is lost),
contradicting its own `lunch_duration = 60` ("1 hour for lunch"): on a day
with candidates of 60 and 120 minutes the emitted Lunch Break is the
zero-length 12:00-12:00, while the 30-minute travel insertions before every
non-first candidate are as specified. -/
theorem claim_C9 :
    create_basic_itinerary ⟨"Paris", 1⟩ [.wrapped poiA, .wrapped poiB] =
      [⟨1, [⟨"A", "09:00", "10:00", "Paris", "Enjoy A"⟩,
            ⟨"Travel to next location", "10:00", "10:30", "Traveling to Paris",
              "Travel time to B"⟩,
            ⟨"B", "10:30", "12:30", "Paris", "Enjoy B"⟩,
            ⟨"Lunch Break", "12:00", "12:00", "Local Restaurant",
              "Time for lunch and relaxation"⟩]⟩] ∧
    ∀ d ∈ create_basic_itinerary ⟨"Paris", 1⟩ [.wrapped poiA, .wrapped poiB],
      ∀ a ∈ d.activities, a.name = "Lunch Break" → a.end_time = "12:00" := by
  decide

/-- C10: a first argument that is not a `time` value makes `_add_minutes`
raise inside its `try` and return the fixed constant 12:00, regardless of
the current date and the minutes argument. -/
theorem claim_C10 (today : Nat) (tv mv : PyVal) (h : isPyTime tv = false) :
    add_minutes today tv mv = ⟨12, 0⟩ := by
  cases tv with
  | pyTime t => simp [isPyTime] at h
  | pyNone => rfl
  | pyInt n => rfl
  | pyStr s => rfl

/-- C10 witness: `None` plus any minutes gives 12:00. -/
theorem claim_C10_witness :
    isPyTime .pyNone = false ∧ add_minutes 739617 .pyNone (.pyInt 7) = ⟨12, 0⟩ :=
  ⟨by decide, claim_C10 739617 .pyNone (.pyInt 7) (by decide)⟩

end Roameo
